import Mathlib

/-!
Verification of the ETEC/FATEC recruitment-tracker bot
(`tracker_aprovacao.py`): a shallow embedding of its pure logic
(phase classification, metadata extraction, history dedup, listing
discovery, document text matching, gazette search pagination, and the
main sweep) together with theorems settling the frozen claims.

Network and file I/O are modelled as explicit oracle parameters
(fetch results, parsed documents, the gazette API); everything the
Python code computes from those inputs is translated directly.
-/

/-! ## Character-level helpers (Python `str.lower`, `\s`, `in`, `strip`) -/

/-- Lower-casing as Python's `str.lower` acts on the characters appearing in
this program: ASCII `A`-`Z` and the Latin-1 uppercase accented letters
(`À`..`Þ` except `×`) map down by `0x20`; every other character is fixed. -/
def pyLower (c : Char) : Char :=
  if 65 ≤ c.toNat && c.toNat ≤ 90 then Char.ofNat (c.toNat + 32)
  else if 0xC0 ≤ c.toNat && c.toNat ≤ 0xDE && c.toNat != 0xD7 then Char.ofNat (c.toNat + 32)
  else c

/-- Case-insensitive character comparison (the effect of `re.IGNORECASE`). -/
def eqCI (x c : Char) : Bool := pyLower x == pyLower c

/-- Python's `\s` on the characters appearing in this program. -/
def isWs (c : Char) : Bool :=
  c == ' ' || c == '\t' || c == '\n' || c == '\x0d' || c == '\x0b' || c == '\x0c'

/-- Python's `.` metacharacter: any character except a newline. -/
def notNL (c : Char) : Bool := c != '\n'

/-- Python's substring operator `needle in hay`, on character lists. -/
def subSearch (needle : List Char) : List Char → Bool
  | [] => needle.isEmpty
  | x :: t => needle.isPrefixOf (x :: t) || subSearch needle t

/-- Python's substring operator `needle in hay`, on strings. -/
def strContains (hay needle : String) : Bool := subSearch needle.data hay.data

/-- Python's `str.lower` on whole strings. -/
def pyLowerStr (s : String) : String := ⟨s.data.map pyLower⟩

/-- Python's `str.startswith`. -/
def strStarts (s pre : String) : Bool := pre.data.isPrefixOf s.data

/-- Python's `str.strip()`: remove leading and trailing whitespace. -/
def pyStrip (s : String) : String :=
  ⟨((s.data.dropWhile isWs).reverse.dropWhile isWs).reverse⟩

/-! ## A small regex engine

Each `PHASE_MAP` pattern of the source is an alternation of simple
sequences built from literals, character classes `[cç]`, `.`, `E?`,
`\s*` and `.*`.  A pattern is represented as a `List (List Atom)`
(outer list: the `|`-alternatives) and `re.search(pat, s, IGNORECASE)`
as "some alternative matches at some position of `s`". -/

inductive Atom where
  | lit (c : Char)
  | cls (cs : List Char)
  | dot
  | opt (c : Char)
  | star (p : Char → Bool)

/-- Matcher for one alternative at the start of the input, with explicit
fuel to keep the recursion structural.  Every recursive call decreases
`ps.length + s.length`, so fuel `ps.length + s.length + 1` is exact. -/
def matchSeqF : Nat → List Atom → List Char → Bool
  | 0, _, _ => false
  | _ + 1, [], _ => true
  | _ + 1, Atom.lit _ :: _, [] => false
  | fl + 1, Atom.lit c :: ps, x :: t => eqCI x c && matchSeqF fl ps t
  | _ + 1, Atom.cls _ :: _, [] => false
  | fl + 1, Atom.cls cs :: ps, x :: t => cs.any (fun c => eqCI x c) && matchSeqF fl ps t
  | _ + 1, Atom.dot :: _, [] => false
  | fl + 1, Atom.dot :: ps, x :: t => notNL x && matchSeqF fl ps t
  | fl + 1, Atom.opt _ :: ps, [] => matchSeqF fl ps []
  | fl + 1, Atom.opt c :: ps, x :: t =>
      (eqCI x c && matchSeqF fl ps t) || matchSeqF fl ps (x :: t)
  | fl + 1, Atom.star _ :: ps, [] => matchSeqF fl ps []
  | fl + 1, Atom.star p :: ps, x :: t =>
      matchSeqF fl ps (x :: t) || (p x && matchSeqF fl (Atom.star p :: ps) t)

/-- Does the alternative `ps` match a prefix of `s`? -/
def matchSeq (ps : List Atom) (s : List Char) : Bool :=
  matchSeqF (ps.length + s.length + 1) ps s

/-- Does the alternative `ps` match starting at some position of `s`? -/
def searchSeq (ps : List Atom) : List Char → Bool
  | [] => matchSeq ps []
  | x :: t => matchSeq ps (x :: t) || searchSeq ps t

/-- `re.search(pattern, s, re.IGNORECASE) is not None` for an alternation
of simple sequences. -/
def reSearch (pats : List (List Atom)) (s : List Char) : Bool :=
  pats.any (fun ps => searchSeq ps s)

/-- A sequence of plain literal atoms. -/
def lits (s : String) : List Atom := s.data.map Atom.lit

/-- The character class `[cç]`. -/
def ccCls : Atom := Atom.cls ['c', 'ç']

/-- The character class `[aã]`. -/
def aaCls : Atom := Atom.cls ['a', 'ã']

/-- `\s*`. -/
def wsStar : Atom := Atom.star isWs

/-- `.*`. -/
def dotStar : Atom := Atom.star notNL

/-! ## PHASE_MAP and classify_phase -/

/-- `edital\s*de\s*abertura|EDITALDE?ABERTURA` -/
def pat_abertura : List (List Atom) :=
  [lits "edital" ++ [wsStar] ++ lits "de" ++ [wsStar] ++ lits "abertura",
   lits "EDITALD" ++ [Atom.opt 'E'] ++ lits "ABERTURA"]

/-- `redu[cç][aã]o.*isen[cç][aã]o|REDUCAO.ISENCAO` -/
def pat_reducao : List (List Atom) :=
  [lits "redu" ++ [ccCls, aaCls] ++ lits "o" ++ [dotStar] ++
     lits "isen" ++ [ccCls, aaCls] ++ lits "o",
   lits "REDUCAO" ++ [Atom.dot] ++ lits "ISENCAO"]

/-- `reabertura|REABERTURA` -/
def pat_reabertura : List (List Atom) :=
  [lits "reabertura", lits "REABERTURA"]

/-- `banca\s*examinadora|BANCAEXAMINADORA` -/
def pat_banca : List (List Atom) :=
  [lits "banca" ++ [wsStar] ++ lits "examinadora", lits "BANCAEXAMINADORA"]

/-- `altera[cç][aã]o.*cronograma|ALTERACAOCRONOGRAMA` -/
def pat_cronograma : List (List Atom) :=
  [lits "altera" ++ [ccCls, aaCls] ++ lits "o" ++ [dotStar] ++ lits "cronograma",
   lits "ALTERACAOCRONOGRAMA"]

/-- `altera[cç][aã]o.*comiss[aã]o|ALTERACAOCOMISSAO` -/
def pat_comissao : List (List Atom) :=
  [lits "altera" ++ [ccCls, aaCls] ++ lits "o" ++ [dotStar] ++
     lits "comiss" ++ [aaCls] ++ lits "o",
   lits "ALTERACAOCOMISSAO"]

/-- `deferimento|indeferimento|DEFERIMENTO` -/
def pat_deferimento : List (List Atom) :=
  [lits "deferimento", lits "indeferimento", lits "DEFERIMENTO"]

/-- `resultado.*escrita.*conv|RESULTADOESCRITACONV|resultado.*pve` -/
def pat_resultado_escrita : List (List Atom) :=
  [lits "resultado" ++ [dotStar] ++ lits "escrita" ++ [dotStar] ++ lits "conv",
   lits "RESULTADOESCRITACONV",
   lits "resultado" ++ [dotStar] ++ lits "pve"]

/-- `resultado.*memorial|resultado.*prova|RESULTADO` -/
def pat_resultado : List (List Atom) :=
  [lits "resultado" ++ [dotStar] ++ lits "memorial",
   lits "resultado" ++ [dotStar] ++ lits "prova",
   lits "RESULTADO"]

/-- `classifica[cç][aã]o\s*final|CLASSIFICAOFINAL|CLASSIFICACAOFINAL` -/
def pat_classificacao : List (List Atom) :=
  [lits "classifica" ++ [ccCls, aaCls] ++ lits "o" ++ [wsStar] ++ lits "final",
   lits "CLASSIFICAOFINAL", lits "CLASSIFICACAOFINAL"]

/-- `homologa[cç][aã]o|HOMOLOGA` -/
def pat_homologacao : List (List Atom) :=
  [lits "homologa" ++ [ccCls, aaCls] ++ lits "o", lits "HOMOLOGA"]

/-- `convoca[cç][aã]o|CONVOCAO|CONVOCACAO` -/
def pat_convocacao : List (List Atom) :=
  [lits "convoca" ++ [ccCls, aaCls] ++ lits "o", lits "CONVOCAO", lits "CONVOCACAO"]

/-- `prorroga[cç][aã]o|PRORROGA` -/
def pat_prorrogacao : List (List Atom) :=
  [lits "prorroga" ++ [ccCls, aaCls] ++ lits "o", lits "PRORROGA"]

/-- The ordered (pattern, label) rule list of the source. -/
def PHASE_MAP : List (List (List Atom) × String) :=
  [(pat_abertura, "📋 Edital de Abertura"),
   (pat_reducao, "💰 Resultado Redução/Isenção de Taxa"),
   (pat_reabertura, "🔄 Reabertura de Inscrições"),
   (pat_banca, "👥 Portaria da Banca Examinadora"),
   (pat_cronograma, "📅 Alteração de Cronograma"),
   (pat_comissao, "🔀 Alteração da Comissão"),
   (pat_deferimento, "✅ Deferimento/Indeferimento de Inscrições"),
   (pat_resultado_escrita, "📝 Resultado Prova Escrita e Convocação Didática"),
   (pat_resultado, "📝 Resultado de Prova/Avaliação"),
   (pat_classificacao, "🏆 Classificação Final"),
   (pat_homologacao, "✔️ Homologação"),
   (pat_convocacao, "📞 Convocação"),
   (pat_prorrogacao, "⏳ Prorrogação de Validade")]

/-- First-match-wins scan of the rule list. -/
def phaseLookup : List (List (List Atom) × String) → List Char → String
  | [], _ => "📄 Documento"
  | (pat, label) :: rest, s =>
      if reSearch pat s then label else phaseLookup rest s

/-- `classify_phase`: identify the phase from the document name or URL. -/
def classify_phase (doc_name doc_url : String) : String :=
  phaseLookup PHASE_MAP (doc_name ++ " " ++ doc_url).data

/-! ## History store

Python's `history` dict is modelled as an association list; insertion
conses a fresh pair (the code only ever writes a key after checking it
is absent). -/

/-- One history record; both the crawler-feed and the gazette-feed records
are instances, with the fields the respective feed does not set left at
their defaults. -/
structure HistRecord where
  source : String := ""
  name : String := ""
  title : String := ""
  phase : String := ""
  detail_page : String := ""
  listing : String := ""
  edital : String := ""
  unidade : String := ""
  cidade : String := ""
  disciplina : String := ""
  date : String := ""
  hierarchy : String := ""
  url : String := ""
  matchesN : Nat := 0
  found_name : Bool := false
deriving DecidableEq

/-- The durable dedup mapping. -/
abbrev History : Type := List (String × HistRecord)

/-- Dictionary lookup `history[key]`. -/
def hlookup : History → String → Option HistRecord
  | [], _ => none
  | (k, v) :: t, key => if k = key then some v else hlookup t key

/-- Python's `key in history`. -/
def hmem (h : History) (key : String) : Bool := (hlookup h key).isSome

/-! ## Metadata extraction (`extract_metadata`)

The four `re.search` calls run against the flattened page text; their
captured groups are taken as inputs here (the regex engine for these
capture-group patterns is abstracted away), and the field-assembly and
fallback logic of the source is translated directly. -/

structure ProcMeta where
  edital : String := ""
  unidade : String := ""
  cidade : String := ""
  disciplina : String := ""
deriving DecidableEq

/-- The outcome of the four `re.search` calls of `extract_metadata` on a
given page text: `none` when the pattern does not match, otherwise the
raw captured group(s) before `.strip()`. -/
structure MetaMatches where
  editalNum : Option String
  unidadeCidade : Option (String × String)
  disciplina : Option String
  curso : Option String

/-- `extract_metadata`: build the metadata record from the pattern
results, defaulting every field to `""` and falling back from the
DISCIPLINA/COMPONENTE CURRICULAR pattern to the CURSO pattern when the
former left the field empty. -/
def extract_metadata (m : MetaMatches) : ProcMeta :=
  let meta : ProcMeta := {}
  let meta := match m.editalNum with
    | some g => { meta with edital := pyStrip g }
    | none => meta
  let meta := match m.unidadeCidade with
    | some (g1, g2) => { meta with unidade := pyStrip g1, cidade := pyStrip g2 }
    | none => meta
  let meta := match m.disciplina with
    | some g => { meta with disciplina := pyStrip g }
    | none => meta
  if meta.disciplina = "" then
    match m.curso with
    | some g => { meta with disciplina := pyStrip g }
    | none => meta
  else meta

/-! ## Document text matching (PDF / DOCX)

Raw bytes and their parsing are modelled by `Option` parse results:
`none` is a malformed document (the `except` branch of the source). -/

/-- A parsed PDF: per-page extracted text, `none` when `extract_text()`
returns `None`. -/
structure PdfDoc where
  pages : List (Option String)

/-- A parsed word-processor document: paragraph texts and, separately,
the cell texts of each row of each table. -/
structure DocxDoc where
  paragraphs : List String
  tables : List (List (List String))

/-- `check_name_in_pdf`: case-insensitive page-by-page substring search;
a malformed document yields `false`. -/
def check_name_in_pdf (parsed : Option PdfDoc) (name : String) : Bool :=
  match parsed with
  | none => false
  | some pdf =>
      pdf.pages.any (fun pg => strContains (pyLowerStr (pg.getD "")) (pyLowerStr name))

/-- `check_name_in_docx`: search every paragraph and every table cell,
case-insensitively; a malformed document yields `false`. -/
def check_name_in_docx (parsed : Option DocxDoc) (name : String) : Bool :=
  match parsed with
  | none => false
  | some doc =>
      doc.paragraphs.any (fun para => strContains (pyLowerStr para) (pyLowerStr name)) ||
      doc.tables.any (fun table =>
        table.any (fun row =>
          row.any (fun cell => strContains (pyLowerStr cell) (pyLowerStr name))))

/-- The downloaded bytes of a document, represented by what they parse
to under each reader (`none` = download failed). -/
structure DocContent where
  pdf : Option PdfDoc
  docx : Option DocxDoc

/-- `check_name_in_document`: dispatch on the extension; anything other
than `pdf`/`docx`/`doc` is `false` without looking at the content. -/
def check_name_in_document (downloaded : Option DocContent) (ext : String) (name : String) : Bool :=
  match downloaded with
  | none => false
  | some content =>
      if ext = "pdf" then check_name_in_pdf content.pdf name
      else if ext = "docx" ∨ ext = "doc" then check_name_in_docx content.docx name
      else false

/-! ## Message formatting -/

/-- `_format_meta_block` of the source. -/
def format_meta_block (meta : ProcMeta) (label : String) : String :=
  let lines : List String :=
    (if meta.edital ≠ "" then ["📌 *Edital:* " ++ meta.edital] else []) ++
    (if meta.unidade ≠ "" then ["🏫 *Unidade:* " ++ meta.unidade] else []) ++
    (if meta.cidade ≠ "" then ["📍 *Cidade:* " ++ meta.cidade] else []) ++
    (if meta.disciplina ≠ "" then ["📚 *Disciplina:* " ++ meta.disciplina] else []) ++
    ["🗂️ *Tipo:* " ++ label]
  String.intercalate "\n" lines

/-- Message when the name IS found in the document. -/
def build_message_found (doc_name doc_url phase : String) (meta : ProcMeta)
    (label detail_url : String) : String :=
  "🚨🚨🚨 *SEU NOME FOI ENCONTRADO!* 🚨🚨🚨\n\n" ++ format_meta_block meta label ++
  "\n\n📄 *Documento:* " ++ doc_name ++ "\n🔖 *Fase:* " ++ phase ++
  "\n🔗 *Arquivo:* " ++ doc_url ++ "\n📋 *Página:* " ++ detail_url

/-- Message when the name is NOT found (new publication). -/
def build_message_not_found (doc_name doc_url phase : String) (meta : ProcMeta)
    (label detail_url : String) : String :=
  "⚠️ *Nova publicação detectada*\n\n" ++ format_meta_block meta label ++
  "\n\n📄 *Documento:* " ++ doc_name ++ "\n🔖 *Fase:* " ++ phase ++
  "\nSeu nome *não* foi encontrado na busca automática.\n🔗 *Arquivo:* " ++ doc_url ++
  "\n📋 *Página:* " ++ detail_url

/-! ## Listing crawler (`discover_detail_links`) -/

def MAX_PROCESSES_PER_PAGE : Nat := 50

/-- The query-parameter marker identifying genuine detail links. -/
def DETAIL_MARKER : String := "oljioahohafnav87412"

/-- The anchor filter of `discover_detail_links`: keep hrefs containing
the marker and drop `javascript:` postback pseudo-links. -/
def isDetailHref (href : String) : Bool :=
  strContains href DETAIL_MARKER && !(strStarts href "javascript:")

/-- The collection loop of `discover_detail_links`: keep the first
occurrence of each resolved URL, in document order.  `join` is
`urljoin(listing_url, ·)`. -/
def collectLinks (join : String → String) : List String → List String → List String
  | _, [] => []
  | seen, h :: hs =>
      if isDetailHref h then
        if join h ∈ seen then collectLinks join seen hs
        else join h :: collectLinks join (join h :: seen) hs
      else collectLinks join seen hs

/-- `discover_detail_links`: `none` is a failed listing fetch (empty
result); otherwise dedup the matching anchors in first-seen order and
truncate to the cap. -/
def discover_detail_links (join : String → String) (fetched : Option (List String)) : List String :=
  match fetched with
  | none => []
  | some anchors => (collectLinks join [] anchors).take MAX_PROCESSES_PER_PAGE

/-! ## Gazette search (`search_doe_sp`) -/

def DOE_SITE_BASE : String := "https://www.doe.sp.gov.br"

def DOE_SEARCH_DAYS : Nat := 30

def DOE_PAGE_SIZE : Nat := 20

/-- One item of the gazette search API's `items[]` (absent JSON fields
already replaced by the source's `.get` defaults). -/
structure DoeItem where
  id : String := ""
  title : String := "Sem título"
  slug : String := ""
  hierarchy : String := ""
  excerpt : String := ""
  date : String := ""
  totalTermsFound : Nat := 0
deriving DecidableEq

/-- One page of the gazette search API's response. -/
structure DoePage where
  items : List DoeItem
  hasNextPage : Bool

/-- `pub_url = f"{DOE_SITE_BASE}/{slug}" if slug else ""`. -/
def doePubUrl (item : DoeItem) : String :=
  if item.slug ≠ "" then DOE_SITE_BASE ++ "/" ++ item.slug else ""

/-- The history record `search_doe_sp` stores for a new publication. -/
def doeRecord (item : DoeItem) : HistRecord :=
  { source := "DOE-SP", title := item.title, date := item.date.take 10,
    hierarchy := item.hierarchy, url := doePubUrl item,
    matchesN := item.totalTermsFound, found_name := true }

/-- The WhatsApp message `search_doe_sp` builds for a new publication. -/
def doeMessage (item : DoeItem) : String :=
  let pub_date := item.date.take 10
  let base :=
    "📰 *SEU NOME NO DIÁRIO OFICIAL!* 📰\n\n📌 *Publicação:* " ++ item.title ++
    "\n📅 *Data:* " ++ pub_date ++ "\n🏛️ *Seção:* " ++ item.hierarchy ++
    "\n🔎 *Menções encontradas:* " ++ toString item.totalTermsFound ++ "\n"
  let withExcerpt :=
    if item.excerpt ≠ "" then
      base ++ "📝 *Trecho:* _" ++
        (if 300 < item.excerpt.length then item.excerpt.take 300 ++ "…"
         else item.excerpt) ++ "_\n"
    else base
  if doePubUrl item ≠ "" then withExcerpt ++ "🔗 *Link:* " ++ doePubUrl item else withExcerpt

/-- The `for item in items` body of `search_doe_sp`: skip known ids,
record new ones (with `found_name := true`) and emit one notification
per new id.  Returns (history, new count, notifications as
(key, message) pairs). -/
def doeProcessItems : List DoeItem → History → History × Nat × List (String × String)
  | [], hist => (hist, 0, [])
  | item :: rest, hist =>
      if hmem hist ("doe:" ++ item.id) then doeProcessItems rest hist
      else
        let r := doeProcessItems rest (("doe:" ++ item.id, doeRecord item) :: hist)
        (r.1, r.2.1 + 1, ("doe:" ++ item.id, doeMessage item) :: r.2.2)

/-- The outcome of a gazette search pass. -/
structure DoeResult where
  history : History
  newCount : Nat
  notifs : List (String × String)
  requests : List Nat
  evaluated : Nat
  done : Bool

/-- The `while True` pagination loop of `search_doe_sp`.  `api` is the
search endpoint (`error` = network/JSON failure, which breaks the
loop); `requests` records every page number actually requested and
`evaluated` counts the items iterated over.  The loop structure needs
fuel in Lean; `done := false` marks the (never intended) fuel-exhausted
outcome. -/
def doeLoop (api : Nat → Except String DoePage) : Nat → Nat → History → DoeResult
  | 0, _, hist =>
      { history := hist, newCount := 0, notifs := [], requests := [],
        evaluated := 0, done := false }
  | fl + 1, page, hist =>
      match api page with
      | Except.error _ =>
          { history := hist, newCount := 0, notifs := [], requests := [page],
            evaluated := 0, done := true }
      | Except.ok pg =>
          if pg.items.isEmpty then
            { history := hist, newCount := 0, notifs := [], requests := [page],
              evaluated := 0, done := true }
          else
            let pr := doeProcessItems pg.items hist
            if pg.hasNextPage then
              let r := doeLoop api fl (page + 1) pr.1
              { history := r.history, newCount := pr.2.1 + r.newCount,
                notifs := pr.2.2 ++ r.notifs, requests := page :: r.requests,
                evaluated := pg.items.length + r.evaluated, done := r.done }
            else
              { history := pr.1, newCount := pr.2.1, notifs := pr.2.2,
                requests := [page], evaluated := pg.items.length, done := true }

/-- `search_doe_sp`: run the pagination loop from page 1. -/
def search_doe_sp (api : Nat → Except String DoePage) (fuel : Nat) (hist : History) : DoeResult :=
  doeLoop api fuel 1 hist

/-! ## Detail-page processing (`process_detail_page`) -/

/-- A document descriptor produced by `fetch_detail_page`. -/
structure DocInfo where
  name : String := ""
  url : String := ""
  ext : String := ""
  phase : String := ""
deriving DecidableEq

/-- The history record `process_detail_page` stores for a new document. -/
def docRecord (doc : DocInfo) (meta : ProcMeta) (detail_url label : String)
    (found : Bool) : HistRecord :=
  { name := doc.name, phase := doc.phase, detail_page := detail_url, listing := label,
    edital := meta.edital, unidade := meta.unidade, cidade := meta.cidade,
    disciplina := meta.disciplina, found_name := found }

/-- The `for doc_info in docs` loop of `process_detail_page`: skip
documents whose URL is already in history, otherwise run the name check
(`check` stands for `check_name_in_document` with its downloads),
record the outcome and emit one notification.  Notifications are
returned as (document URL, message) pairs. -/
def processDocs (check : DocInfo → Bool) (meta : ProcMeta) (detail_url label : String) :
    List DocInfo → History → History × List (String × String)
  | [], hist => (hist, [])
  | d :: ds, hist =>
      if hmem hist d.url then processDocs check meta detail_url label ds hist
      else
        let found := check d
        let msg :=
          if found then build_message_found d.name d.url d.phase meta label detail_url
          else build_message_not_found d.name d.url d.phase meta label detail_url
        let r := processDocs check meta detail_url label ds
          ((d.url, docRecord d meta detail_url label found) :: hist)
        (r.1, (d.url, msg) :: r.2)

/-- `process_detail_page`: `fetched` is the result of
`fetch_detail_page` (`none` = fetch failure, which the source turns
into `({}, [])`).  Returns the updated history and the notifications
sent. -/
def process_detail_page (fetched : Option (ProcMeta × List DocInfo))
    (check : DocInfo → Bool) (detail_url label : String) (hist : History) :
    History × List (String × String) :=
  match fetched with
  | none => (hist, [])
  | some (meta, docs) =>
      if docs.isEmpty then (hist, [])
      else processDocs check meta detail_url label docs hist

/-! ## The main sweep (`main`) -/

/-- One configured listing source. -/
structure ListingSrc where
  url : String
  label : String

/-- The hard-coded `LISTING_PAGES` configuration of the source. -/
def CPS_BASE : String := "https://urhsistemas.cps.sp.gov.br"

def LISTING_PAGES : List ListingSrc :=
  [⟨CPS_BASE ++ "/dgsdad/SelecaoPublica/ETEC/PSS/Abertos.aspx",
    "ETEC – Processo Seletivo Docente – Inscrições Abertas"⟩,
   ⟨CPS_BASE ++ "/dgsdad/SelecaoPublica/ETEC/PSS/Andamento.aspx",
    "ETEC – Processo Seletivo Docente – Em Andamento"⟩,
   ⟨CPS_BASE ++ "/dgsdad/selecaopublica/ETEC/CPD/Abertos.aspx",
    "ETEC – Concurso Público Docente – Inscrições Abertas"⟩,
   ⟨CPS_BASE ++ "/dgsdad/selecaopublica/ETEC/CPD/emAndamento.aspx",
    "ETEC – Concurso Público Docente – Em Andamento"⟩,
   ⟨CPS_BASE ++ "/dgsdad/SelecaoPublica/ETEC/Auxiliar/EmAndamento.aspx",
    "ETEC – Auxiliar de Docente – Em Andamento"⟩,
   ⟨CPS_BASE ++ "/dgsdad/SelecaoPublica/FATEC/PSS/inscricoesabertas.aspx",
    "FATEC – Processo Seletivo Docente – Inscrições Abertas"⟩,
   ⟨CPS_BASE ++ "/dgsdad/SelecaoPublica/FATEC/ProcessoSeletivo/EmAndamento.aspx",
    "FATEC – Processo Seletivo Docente – Em Andamento"⟩,
   ⟨CPS_BASE ++ "/dgsdad/SelecaoPublica/FATEC/CPD/Abertos.aspx",
    "FATEC – Concurso Público Docente – Inscrições Abertas"⟩,
   ⟨CPS_BASE ++ "/dgsdad/SelecaoPublica/FATEC/CPD/emAndamento.aspx",
    "FATEC – Concurso Público Docente – Em Andamento"⟩,
   ⟨CPS_BASE ++ "/dgsdad/SelecaoPublica/PSSAD/Abertos.aspx",
    "PSSAD – Auxiliar de Docente – Inscrições Abertas"⟩,
   ⟨CPS_BASE ++ "/dgsdad/selecaopublica/PSSAD/emAndamento.aspx",
    "PSSAD – Auxiliar de Docente – Em Andamento"⟩]

/-- One outbound network interaction of a sweep. -/
inductive NetReq where
  | listingGet (url : String)
  | detailGet (url : String)
  | docDownload (url : String)
  | doeSearch (page : Nat)
  | whatsGet
deriving DecidableEq

/-- Is the request part of the gazette phase (search call or a
notification it triggered)? -/
def reqIsDoePhase : NetReq → Bool
  | NetReq.doeSearch _ => true
  | NetReq.whatsGet => true
  | _ => false

/-- The inner `for detail_url in detail_links` loop of `main`.  Each
link costs one detail GET; each processed (new) document costs one
download and one notification send.  Returns (history, requests, new
count), the count computed as the history-length difference as in the
source. -/
def crawlDetails (fetchDetail : String → Option (ProcMeta × List DocInfo))
    (check : DocInfo → Bool) (label : String) :
    List String → History → History × List NetReq × Nat
  | [], hist => (hist, [], 0)
  | u :: us, hist =>
      let pr := process_detail_page (fetchDetail u) check u label hist
      let rest := crawlDetails fetchDetail check label us pr.1
      (rest.1,
       NetReq.detailGet u ::
         (pr.2.map (fun n => NetReq.docDownload n.1) ++
          pr.2.map (fun _ => NetReq.whatsGet) ++ rest.2.1),
       (pr.1.length - hist.length) + rest.2.2)

/-- The outer `for listing in LISTING_PAGES` loop of `main`. -/
def crawlAll (fetchListing : String → Option (List String))
    (join : String → String → String)
    (fetchDetail : String → Option (ProcMeta × List DocInfo))
    (check : DocInfo → Bool) :
    List ListingSrc → History → History × List NetReq × Nat
  | [], hist => (hist, [], 0)
  | l :: ls, hist =>
      let links := discover_detail_links (join l.url) (fetchListing l.url)
      let dr := crawlDetails fetchDetail check l.label links hist
      let rest := crawlAll fetchListing join fetchDetail check ls dr.1
      (rest.1, NetReq.listingGet l.url :: (dr.2.1 ++ rest.2.1), dr.2.2 + rest.2.2)

/-- The outcome of one full sweep. -/
structure MainResult where
  exitCode : Nat
  requests : List NetReq
  history : History
  totalNew : Nat

/-- `main`: crawl every configured listing, then run one gazette pass,
then persist.  The source has no abort path: it always runs both
phases and finishes normally (exit code 0). -/
def mainModel (listingPages : List ListingSrc) (hist0 : History)
    (fetchListing : String → Option (List String))
    (join : String → String → String)
    (fetchDetail : String → Option (ProcMeta × List DocInfo))
    (check : DocInfo → Bool)
    (api : Nat → Except String DoePage) (fuel : Nat) : MainResult :=
  let cr := crawlAll fetchListing join fetchDetail check listingPages hist0
  let dr := search_doe_sp api fuel cr.1
  { exitCode := 0,
    requests := cr.2.1 ++ dr.requests.map NetReq.doeSearch ++
      dr.notifs.map (fun _ => NetReq.whatsGet),
    history := dr.history,
    totalNew := cr.2.2 + dr.newCount }

/-! ## Concrete inputs used by the witness theorems -/

/-- A listing page with 80 distinct matching anchors. -/
def anchors80 : List String :=
  (List.range 80).map (fun i => "oljioahohafnav87412&id=" ++ toString i)

/-- A placeholder gazette item. -/
def dummyItem : DoeItem := {}

/-- A gazette page of 20 items. -/
def doeTestPage (next : Bool) : DoePage :=
  { items := List.replicate 20 dummyItem, hasNextPage := next }

/-- A gazette API with exactly three pages of 20 items, the third
reporting no further pages. -/
def apiThree : Nat → Except String DoePage := fun p =>
  if p = 1 then Except.ok (doeTestPage true)
  else if p = 2 then Except.ok (doeTestPage true)
  else if p = 3 then Except.ok (doeTestPage false)
  else Except.error "no further request expected"

/-- A single gazette publication. -/
def itemX : DoeItem := { id := "x", title := "Publicação", date := "2026-01-15T00:00:00" }

/-- A gazette API returning one single-item page. -/
def apiOne : Nat → Except String DoePage := fun _ =>
  Except.ok { items := [itemX], hasNextPage := false }

/-- A document descriptor whose URL is already in `histA`. -/
def docA : DocInfo := { name := "Edital", url := "ku", ext := "pdf", phase := "📄 Documento" }

/-- A history already containing the key `"ku"`. -/
def histA : History := [("ku", {})]

/-- A parsed DOCX whose only hit is inside a table cell. -/
def docxTableOnly : DocxDoc :=
  { paragraphs := ["lista de aprovados"],
    tables := [[["item"], ["Renan Bezerra dos Santos", "aprovado"]]] }

/-! # Theorems -/

/-! ## Regex engine lemmas -/

theorem matchSeqF_zero (ps : List Atom) (s : List Char) : matchSeqF 0 ps s = false := by
  simp [matchSeqF]

/-- Raising the fuel preserves a successful match. -/
theorem matchSeqF_le : ∀ (f g : Nat) (ps : List Atom) (s : List Char),
    f ≤ g → matchSeqF f ps s = true → matchSeqF g ps s = true := by
  intro f
  induction f with
  | zero => intro g ps s _ h; rw [matchSeqF_zero] at h; exact absurd h (by simp)
  | succ f ih =>
    intro g ps s hle h
    obtain ⟨g, rfl⟩ : ∃ g', g = g' + 1 := ⟨g - 1, by omega⟩
    have hfg : f ≤ g := by omega
    match ps, s with
    | [], s => simp [matchSeqF]
    | Atom.lit c :: ps, [] => simp [matchSeqF] at h
    | Atom.lit c :: ps, x :: t =>
      simp only [matchSeqF, Bool.and_eq_true] at h ⊢
      exact ⟨h.1, ih g ps t hfg h.2⟩
    | Atom.cls cs :: ps, [] => simp [matchSeqF] at h
    | Atom.cls cs :: ps, x :: t =>
      simp only [matchSeqF, Bool.and_eq_true] at h ⊢
      exact ⟨h.1, ih g ps t hfg h.2⟩
    | Atom.dot :: ps, [] => simp [matchSeqF] at h
    | Atom.dot :: ps, x :: t =>
      simp only [matchSeqF, Bool.and_eq_true] at h ⊢
      exact ⟨h.1, ih g ps t hfg h.2⟩
    | Atom.opt c :: ps, [] =>
      simp only [matchSeqF] at h ⊢
      exact ih g ps [] hfg h
    | Atom.opt c :: ps, x :: t =>
      simp only [matchSeqF, Bool.or_eq_true, Bool.and_eq_true] at h ⊢
      rcases h with ⟨h1, h2⟩ | h2
      · exact Or.inl ⟨h1, ih g ps t hfg h2⟩
      · exact Or.inr (ih g ps (x :: t) hfg h2)
    | Atom.star p :: ps, [] =>
      simp only [matchSeqF] at h ⊢
      exact ih g ps [] hfg h
    | Atom.star p :: ps, x :: t =>
      simp only [matchSeqF, Bool.or_eq_true, Bool.and_eq_true] at h ⊢
      rcases h with h1 | ⟨h1, h2⟩
      · exact Or.inl (ih g ps (x :: t) hfg h1)
      · exact Or.inr ⟨h1, ih g (Atom.star p :: ps) t hfg h2⟩

/-- A successful match never looks past the matched prefix: appending
input preserves it, at the same fuel. -/
theorem matchSeqF_append : ∀ (f : Nat) (ps : List Atom) (s u : List Char),
    matchSeqF f ps s = true → matchSeqF f ps (s ++ u) = true := by
  intro f
  induction f with
  | zero => intro ps s u h; rw [matchSeqF_zero] at h; exact absurd h (by simp)
  | succ f ih =>
    intro ps s u h
    match ps, s with
    | [], s => simp [matchSeqF]
    | Atom.lit c :: ps, [] => simp [matchSeqF] at h
    | Atom.lit c :: ps, x :: t =>
      simp only [matchSeqF, Bool.and_eq_true, List.cons_append] at h ⊢
      exact ⟨h.1, ih ps t u h.2⟩
    | Atom.cls cs :: ps, [] => simp [matchSeqF] at h
    | Atom.cls cs :: ps, x :: t =>
      simp only [matchSeqF, Bool.and_eq_true, List.cons_append] at h ⊢
      exact ⟨h.1, ih ps t u h.2⟩
    | Atom.dot :: ps, [] => simp [matchSeqF] at h
    | Atom.dot :: ps, x :: t =>
      simp only [matchSeqF, Bool.and_eq_true, List.cons_append] at h ⊢
      exact ⟨h.1, ih ps t u h.2⟩
    | Atom.opt c :: ps, [] =>
      simp only [matchSeqF, List.nil_append] at h ⊢
      have h2 := ih ps [] u h
      rw [List.nil_append] at h2
      match u with
      | [] => exact h
      | y :: u =>
        simp only [matchSeqF, Bool.or_eq_true]
        exact Or.inr h2
    | Atom.opt c :: ps, x :: t =>
      simp only [matchSeqF, Bool.or_eq_true, Bool.and_eq_true, List.cons_append] at h ⊢
      rcases h with ⟨h1, h2⟩ | h2
      · exact Or.inl ⟨h1, ih ps t u h2⟩
      · exact Or.inr (ih ps (x :: t) u h2)
    | Atom.star p :: ps, [] =>
      simp only [matchSeqF, List.nil_append] at h ⊢
      have h2 := ih ps [] u h
      rw [List.nil_append] at h2
      match u with
      | [] => exact h
      | y :: u =>
        simp only [matchSeqF, Bool.or_eq_true]
        exact Or.inl h2
    | Atom.star p :: ps, x :: t =>
      simp only [matchSeqF, Bool.or_eq_true, Bool.and_eq_true, List.cons_append] at h ⊢
      rcases h with h1 | ⟨h1, h2⟩
      · exact Or.inl (ih ps (x :: t) u h1)
      · exact Or.inr ⟨h1, ih (Atom.star p :: ps) t u h2⟩

/-- Appending input on the right preserves a prefix match. -/
theorem matchSeq_append (ps : List Atom) (s u : List Char)
    (h : matchSeq ps s = true) : matchSeq ps (s ++ u) = true := by
  unfold matchSeq at h ⊢
  have h1 := matchSeqF_append (ps.length + s.length + 1) ps s u h
  exact matchSeqF_le _ _ ps (s ++ u) (by simp only [List.length_append]; omega) h1

/-- A prefix match is in particular a search hit. -/
theorem searchSeq_of_match (ps : List Atom) (s : List Char)
    (h : matchSeq ps s = true) : searchSeq ps s = true := by
  match s with
  | [] => exact h
  | x :: t => simp only [searchSeq, Bool.or_eq_true]; exact Or.inl h

/-- Appending input on the right preserves a search hit. -/
theorem searchSeq_append (ps : List Atom) (s u : List Char)
    (h : searchSeq ps s = true) : searchSeq ps (s ++ u) = true := by
  induction s with
  | nil =>
    simp only [searchSeq] at h
    simp only [List.nil_append]
    exact searchSeq_of_match ps u (by
      have h2 := matchSeq_append ps [] u h
      rwa [List.nil_append] at h2)
  | cons x t ih =>
    simp only [searchSeq, Bool.or_eq_true, List.cons_append] at h ⊢
    rcases h with h1 | h1
    · exact Or.inl (matchSeq_append ps (x :: t) u h1)
    · exact Or.inr (ih h1)

/-- Appending input on the right preserves `re.search` success. -/
theorem reSearch_append (pats : List (List Atom)) (s u : List Char)
    (h : reSearch pats s = true) : reSearch pats (s ++ u) = true := by
  simp only [reSearch, List.any_eq_true] at h ⊢
  obtain ⟨ps, hmem2, hs⟩ := h
  exact ⟨ps, hmem2, searchSeq_append ps s u hs⟩

/-! ## Phase-classification theorems (claims C8 and C2) -/

/-- C8: For the document name "edital de abertura 2026" and every URL,
`classify_phase` returns the "Edital de Abertura" label, regardless of
any other substrings present in the name or URL, because the
edital-de-abertura rule is the first matching rule in the ordered list. -/
theorem C8_abertura_always_first (url : String) :
    classify_phase "edital de abertura 2026" url = "📋 Edital de Abertura" := by
  have hlit : "edital de abertura 2026" ++ " " = "edital de abertura 2026 " := by decide
  have h1 : reSearch pat_abertura ("edital de abertura 2026 ").data = true := by decide
  have h2 : reSearch pat_abertura ("edital de abertura 2026" ++ " " ++ url).data = true := by
    rw [show "edital de abertura 2026" ++ " " ++ url = "edital de abertura 2026 " ++ url by
          rw [hlit],
        String.data_append]
    exact reSearch_append _ _ _ h1
  simp only [classify_phase, PHASE_MAP, phaseLookup, h2]
  rfl

/-- C2 counterexample: the name "Resultado - Classificação Final 2026"
with the empty URL (which itself matches no classification pattern)
classifies as "📝 Resultado de Prova/Avaliação", not "🏆 Classificação
Final": in `PHASE_MAP` the generic `resultado` rule precedes the
`classificação final` rule. -/
theorem C2_counterexample :
    classify_phase "Resultado - Classificação Final 2026" "" =
        "📝 Resultado de Prova/Avaliação" ∧
    "📝 Resultado de Prova/Avaliação" ≠ "🏆 Classificação Final" ∧
    PHASE_MAP.all (fun pr => !reSearch pr.1 "".data) = true :=
  ⟨by decide, by decide, by decide⟩

/-- C2 (amended): for the name "Resultado - Classificação Final 2026"
and any URL such that the combined name-and-URL string matches none of
the eight rules preceding the generic `resultado` rule, `classify_phase`
returns "📝 Resultado de Prova/Avaliação" — the generic `resultado`
rule appears EARLIER in `PHASE_MAP` than the "Classificação Final" rule,
so it governs. -/
theorem C2_amended_resultado_governs (url : String)
    (h1 : reSearch pat_abertura ("Resultado - Classificação Final 2026" ++ " " ++ url).data = false)
    (h2 : reSearch pat_reducao ("Resultado - Classificação Final 2026" ++ " " ++ url).data = false)
    (h3 : reSearch pat_reabertura ("Resultado - Classificação Final 2026" ++ " " ++ url).data = false)
    (h4 : reSearch pat_banca ("Resultado - Classificação Final 2026" ++ " " ++ url).data = false)
    (h5 : reSearch pat_cronograma ("Resultado - Classificação Final 2026" ++ " " ++ url).data = false)
    (h6 : reSearch pat_comissao ("Resultado - Classificação Final 2026" ++ " " ++ url).data = false)
    (h7 : reSearch pat_deferimento ("Resultado - Classificação Final 2026" ++ " " ++ url).data = false)
    (h8 : reSearch pat_resultado_escrita ("Resultado - Classificação Final 2026" ++ " " ++ url).data = false) :
    classify_phase "Resultado - Classificação Final 2026" url =
      "📝 Resultado de Prova/Avaliação" := by
  have hm : matchSeq (lits "RESULTADO") ("Resultado").data = true := by decide
  have h9 : reSearch pat_resultado ("Resultado - Classificação Final 2026" ++ " " ++ url).data = true := by
    have hsplit : "Resultado" ++ " - Classificação Final 2026 " = "Resultado - Classificação Final 2026 " := by decide
    have hlit : "Resultado - Classificação Final 2026" ++ " " = "Resultado - Classificação Final 2026 " := by decide
    have hdata : ("Resultado - Classificação Final 2026" ++ " " ++ url).data =
        "Resultado".data ++ (" - Classificação Final 2026 ".data ++ url.data) := by
      rw [show "Resultado - Classificação Final 2026" ++ " " ++ url =
            ("Resultado" ++ " - Classificação Final 2026 ") ++ url by rw [hsplit, hlit],
          String.data_append, String.data_append, List.append_assoc]
    rw [hdata]
    have hm2 : matchSeq (lits "RESULTADO")
        ("Resultado".data ++ (" - Classificação Final 2026 ".data ++ url.data)) = true :=
      matchSeq_append _ _ _ hm
    have hs : searchSeq (lits "RESULTADO")
        ("Resultado".data ++ (" - Classificação Final 2026 ".data ++ url.data)) = true :=
      searchSeq_of_match _ _ hm2
    simp only [reSearch, List.any_eq_true]
    exact ⟨lits "RESULTADO", by simp [pat_resultado], hs⟩
  simp only [classify_phase, PHASE_MAP, phaseLookup, h1, h2, h3, h4, h5, h6, h7, h8, h9]
  rfl

/-- Witness for the amended C2 at the concrete URL `""`: all eight
side conditions hold there. -/
theorem C2_amended_witness :
    classify_phase "Resultado - Classificação Final 2026" "" =
      "📝 Resultado de Prova/Avaliação" :=
  C2_amended_resultado_governs "" (by decide) (by decide) (by decide) (by decide)
    (by decide) (by decide) (by decide) (by decide)

/-! ## History lemmas -/

theorem hlookup_cons_ne (k0 k : String) (r : HistRecord) (h : History)
    (hne : k0 ≠ k) : hlookup ((k0, r) :: h) k = hlookup h k := by
  simp [hlookup, hne]

theorem hmem_cons (k0 k : String) (r : HistRecord) (h : History)
    (hm : hmem h k = true) : hmem ((k0, r) :: h) k = true := by
  by_cases hk : k0 = k
  · subst hk; simp [hmem, hlookup]
  · simpa [hmem, hlookup_cons_ne k0 k r h hk] using hm

theorem hmem_cons_self (k : String) (r : HistRecord) (h : History) :
    hmem ((k, r) :: h) k = true := by
  simp [hmem, hlookup]

/-! ## `processDocs` / `process_detail_page` lemmas -/

/-- Processing never disturbs a key already present: its record is
looked up unchanged afterwards (nothing is updated or deleted). -/
theorem processDocs_lookup_preserved (check : DocInfo → Bool) (meta : ProcMeta)
    (detail_url label : String) :
    ∀ (docs : List DocInfo) (hist : History) (k : String), hmem hist k = true →
      hlookup (processDocs check meta detail_url label docs hist).1 k = hlookup hist k := by
  intro docs
  induction docs with
  | nil => intro hist k _; rfl
  | cons d ds ih =>
    intro hist k hk
    by_cases hd : hmem hist d.url = true
    · simp only [processDocs, hd, if_true]
      exact ih hist k hk
    · have hd' : hmem hist d.url = false := by simpa using hd
      have hne : d.url ≠ k := by
        intro he
        rw [he, hk] at hd'
        simp at hd'
      simp only [processDocs, hd', Bool.false_eq_true, if_false]
      have hk2 : hmem ((d.url, docRecord d meta detail_url label (check d)) :: hist) k = true :=
        hmem_cons _ _ _ _ hk
      rw [ih _ k hk2]
      exact hlookup_cons_ne _ _ _ _ hne

/-- Every notification emitted by `processDocs` is for a key that was
absent from the history it started from. -/
theorem processDocs_notif_fresh (check : DocInfo → Bool) (meta : ProcMeta)
    (detail_url label : String) :
    ∀ (docs : List DocInfo) (hist : History) (k : String), hmem hist k = true →
      ∀ msg, (k, msg) ∉ (processDocs check meta detail_url label docs hist).2 := by
  intro docs
  induction docs with
  | nil => intro hist k _ msg hmem2; simp [processDocs] at hmem2
  | cons d ds ih =>
    intro hist k hk msg hin
    by_cases hd : hmem hist d.url = true
    · simp only [processDocs, hd, if_true] at hin
      exact ih hist k hk msg hin
    · have hd' : hmem hist d.url = false := by simpa using hd
      simp only [processDocs, hd', Bool.false_eq_true, if_false, List.mem_cons] at hin
      rcases hin with heq | hin
      · have : d.url = k := (Prod.mk.injEq _ _ _ _).mp heq.symm |>.1
        rw [this, hk] at hd'
        exact absurd hd' (by simp)
      · exact ih _ k (hmem_cons _ _ _ _ hk) msg hin

/-- After processing, every document of the list is in history. -/
theorem processDocs_all_mem (check : DocInfo → Bool) (meta : ProcMeta)
    (detail_url label : String) :
    ∀ (docs : List DocInfo) (hist : History) (d : DocInfo), d ∈ docs →
      hmem (processDocs check meta detail_url label docs hist).1 d.url = true := by
  intro docs
  induction docs with
  | nil => intro hist d hd; simp at hd
  | cons d0 ds ih =>
    intro hist d hd
    have hmono : ∀ (h2 : History) (k : String), hmem h2 k = true →
        hmem (processDocs check meta detail_url label ds h2).1 k = true := by
      intro h2 k hk
      have := processDocs_lookup_preserved check meta detail_url label ds h2 k hk
      simpa [hmem, this] using hk
    rcases List.mem_cons.mp hd with rfl | hd'
    · by_cases h0 : hmem hist d.url = true
      · simp only [processDocs, h0, if_true]
        exact hmono hist d.url h0
      · have h0' : hmem hist d.url = false := by simpa using h0
        simp only [processDocs, h0', Bool.false_eq_true, if_false]
        exact hmono _ _ (hmem_cons_self _ _ _)
    · by_cases h0 : hmem hist d0.url = true
      · simp only [processDocs, h0, if_true]
        exact ih hist d hd'
      · have h0' : hmem hist d0.url = false := by simpa using h0
        simp only [processDocs, h0', Bool.false_eq_true, if_false]
        exact ih _ d hd'

/-- If every document of the list is already known, `processDocs` is the
identity and emits nothing. -/
theorem processDocs_skip (check : DocInfo → Bool) (meta : ProcMeta)
    (detail_url label : String) :
    ∀ (docs : List DocInfo) (hist : History),
      (∀ d ∈ docs, hmem hist d.url = true) →
      processDocs check meta detail_url label docs hist = (hist, []) := by
  intro docs
  induction docs with
  | nil => intro hist _; rfl
  | cons d ds ih =>
    intro hist hall
    have hd : hmem hist d.url = true := hall d (List.mem_cons_self d ds)
    simp only [processDocs, hd, if_true]
    exact ih hist (fun d2 hd2 => hall d2 (List.mem_cons_of_mem d hd2))

/-- Running `process_detail_page` a second time over the same fetched
page is a no-op: same history, zero notifications. -/
theorem process_detail_page_idem (fetched : Option (ProcMeta × List DocInfo))
    (check : DocInfo → Bool) (detail_url label : String) (hist : History) :
    process_detail_page fetched check detail_url label
        (process_detail_page fetched check detail_url label hist).1 =
      ((process_detail_page fetched check detail_url label hist).1, []) := by
  match fetched with
  | none => rfl
  | some (meta, docs) =>
    by_cases he : docs.isEmpty = true
    · simp [process_detail_page, he]
    · have he' : docs.isEmpty = false := by simpa using he
      simp only [process_detail_page, he', Bool.false_eq_true, if_false]
      exact processDocs_skip check meta detail_url label docs _
        (fun d hd => processDocs_all_mem check meta detail_url label docs hist d hd)

/-! ## `doeProcessItems` / `doeLoop` lemmas -/

theorem doeProcessItems_lookup_preserved :
    ∀ (items : List DoeItem) (hist : History) (k : String), hmem hist k = true →
      hlookup (doeProcessItems items hist).1 k = hlookup hist k := by
  intro items
  induction items with
  | nil => intro hist k _; rfl
  | cons item rest ih =>
    intro hist k hk
    by_cases hd : hmem hist ("doe:" ++ item.id) = true
    · simp only [doeProcessItems, hd, if_true]
      exact ih hist k hk
    · have hd' : hmem hist ("doe:" ++ item.id) = false := by simpa using hd
      have hne : ("doe:" ++ item.id) ≠ k := by
        intro he
        rw [he, hk] at hd'
        simp at hd'
      simp only [doeProcessItems, hd', Bool.false_eq_true, if_false]
      rw [ih _ k (hmem_cons _ _ _ _ hk)]
      exact hlookup_cons_ne _ _ _ _ hne

theorem doeProcessItems_notif_fresh :
    ∀ (items : List DoeItem) (hist : History) (k : String), hmem hist k = true →
      ∀ msg, (k, msg) ∉ (doeProcessItems items hist).2.2 := by
  intro items
  induction items with
  | nil => intro hist k _ msg hin; simp [doeProcessItems] at hin
  | cons item rest ih =>
    intro hist k hk msg hin
    by_cases hd : hmem hist ("doe:" ++ item.id) = true
    · simp only [doeProcessItems, hd, if_true] at hin
      exact ih hist k hk msg hin
    · have hd' : hmem hist ("doe:" ++ item.id) = false := by simpa using hd
      simp only [doeProcessItems, hd', Bool.false_eq_true, if_false, List.mem_cons] at hin
      rcases hin with heq | hin
      · have : ("doe:" ++ item.id) = k := (Prod.mk.injEq _ _ _ _).mp heq.symm |>.1
        rw [this, hk] at hd'
        exact absurd hd' (by simp)
      · exact ih _ k (hmem_cons _ _ _ _ hk) msg hin

theorem doeProcessItems_all_mem :
    ∀ (items : List DoeItem) (hist : History) (item : DoeItem), item ∈ items →
      hmem (doeProcessItems items hist).1 ("doe:" ++ item.id) = true := by
  intro items
  induction items with
  | nil => intro hist item hd; simp at hd
  | cons item0 rest ih =>
    intro hist item hd
    have hmono : ∀ (h2 : History) (k : String), hmem h2 k = true →
        hmem (doeProcessItems rest h2).1 k = true := by
      intro h2 k hk
      have := doeProcessItems_lookup_preserved rest h2 k hk
      simpa [hmem, this] using hk
    rcases List.mem_cons.mp hd with rfl | hd'
    · by_cases h0 : hmem hist ("doe:" ++ item.id) = true
      · simp only [doeProcessItems, h0, if_true]
        exact hmono hist _ h0
      · have h0' : hmem hist ("doe:" ++ item.id) = false := by simpa using h0
        simp only [doeProcessItems, h0', Bool.false_eq_true, if_false]
        exact hmono _ _ (hmem_cons_self _ _ _)
    · by_cases h0 : hmem hist ("doe:" ++ item0.id) = true
      · simp only [doeProcessItems, h0, if_true]
        exact ih hist item hd'
      · have h0' : hmem hist ("doe:" ++ item0.id) = false := by simpa using h0
        simp only [doeProcessItems, h0', Bool.false_eq_true, if_false]
        exact ih _ item hd'

theorem doeProcessItems_skip :
    ∀ (items : List DoeItem) (hist : History),
      (∀ item ∈ items, hmem hist ("doe:" ++ item.id) = true) →
      doeProcessItems items hist = (hist, 0, []) := by
  intro items
  induction items with
  | nil => intro hist _; rfl
  | cons item rest ih =>
    intro hist hall
    have hd : hmem hist ("doe:" ++ item.id) = true := hall item (List.mem_cons_self item rest)
    simp only [doeProcessItems, hd, if_true]
    exact ih hist (fun it hit => hall it (List.mem_cons_of_mem item hit))

/-- Any record reachable by lookup after `doeProcessItems` either was
already reachable before, or is a freshly inserted gazette record (and
those always carry `found_name := true`). -/
theorem doeProcessItems_lookup_new :
    ∀ (items : List DoeItem) (hist : History) (k : String) (r : HistRecord),
      hlookup (doeProcessItems items hist).1 k = some r →
      hlookup hist k = some r ∨ r.found_name = true := by
  intro items
  induction items with
  | nil => intro hist k r h; exact Or.inl h
  | cons item rest ih =>
    intro hist k r h
    by_cases hd : hmem hist ("doe:" ++ item.id) = true
    · simp only [doeProcessItems, hd, if_true] at h
      exact ih hist k r h
    · have hd' : hmem hist ("doe:" ++ item.id) = false := by simpa using hd
      simp only [doeProcessItems, hd', Bool.false_eq_true, if_false] at h
      rcases ih _ k r h with h2 | h2
      · by_cases hk : ("doe:" ++ item.id) = k
        · subst hk
          simp only [hlookup, if_pos rfl] at h2
          have hr : doeRecord item = r := by injection h2
          exact Or.inr (by rw [← hr]; rfl)
        · rw [hlookup_cons_ne _ _ _ _ hk] at h2
          exact Or.inl h2
      · exact Or.inr h2

theorem doeProcessItems_hmem (items : List DoeItem) (hist : History) (k : String)
    (hk : hmem hist k = true) : hmem (doeProcessItems items hist).1 k = true := by
  have := doeProcessItems_lookup_preserved items hist k hk
  simpa [hmem, this] using hk

theorem doeLoop_lookup_preserved (api : Nat → Except String DoePage) :
    ∀ (f page : Nat) (hist : History) (k : String), hmem hist k = true →
      hlookup (doeLoop api f page hist).history k = hlookup hist k := by
  intro f
  induction f with
  | zero => intro page hist k _; rfl
  | succ f ih =>
    intro page hist k hk
    cases hapi : api page with
    | error e => simp only [doeLoop, hapi]
    | ok pg =>
      by_cases hemp : pg.items.isEmpty = true
      · simp only [doeLoop, hapi, hemp, if_true]
      · have hemp' : pg.items.isEmpty = false := by simpa using hemp
        by_cases hnext : pg.hasNextPage = true
        · simp only [doeLoop, hapi, hemp', Bool.false_eq_true, if_false, hnext, if_true]
          rw [ih (page + 1) _ k (doeProcessItems_hmem pg.items hist k hk)]
          exact doeProcessItems_lookup_preserved pg.items hist k hk
        · have hnext' : pg.hasNextPage = false := by simpa using hnext
          simp only [doeLoop, hapi, hemp', Bool.false_eq_true, if_false, hnext', if_false]
          exact doeProcessItems_lookup_preserved pg.items hist k hk

theorem doeLoop_hmem (api : Nat → Except String DoePage) (f page : Nat)
    (hist : History) (k : String) (hk : hmem hist k = true) :
    hmem (doeLoop api f page hist).history k = true := by
  have := doeLoop_lookup_preserved api f page hist k hk
  simpa [hmem, this] using hk

theorem doeLoop_notif_fresh (api : Nat → Except String DoePage) :
    ∀ (f page : Nat) (hist : History) (k : String), hmem hist k = true →
      ∀ msg, (k, msg) ∉ (doeLoop api f page hist).notifs := by
  intro f
  induction f with
  | zero => intro page hist k _ msg hin; simp [doeLoop] at hin
  | succ f ih =>
    intro page hist k hk msg hin
    cases hapi : api page with
    | error e =>
      simp only [doeLoop, hapi] at hin
      simp at hin
    | ok pg =>
      by_cases hemp : pg.items.isEmpty = true
      · simp only [doeLoop, hapi, hemp, if_true] at hin
        simp at hin
      · have hemp' : pg.items.isEmpty = false := by simpa using hemp
        by_cases hnext : pg.hasNextPage = true
        · simp only [doeLoop, hapi, hemp', Bool.false_eq_true, if_false, hnext, if_true,
            List.mem_append] at hin
          rcases hin with hin | hin
          · exact doeProcessItems_notif_fresh pg.items hist k hk msg hin
          · exact ih (page + 1) _ k (doeProcessItems_hmem pg.items hist k hk) msg hin
        · have hnext' : pg.hasNextPage = false := by simpa using hnext
          simp only [doeLoop, hapi, hemp', Bool.false_eq_true, if_false, hnext', if_false] at hin
          exact doeProcessItems_notif_fresh pg.items hist k hk msg hin

/-- Every record reachable after a gazette pass either was already
reachable or carries `found_name := true`. -/
theorem doeLoop_lookup_new (api : Nat → Except String DoePage) :
    ∀ (f page : Nat) (hist : History) (k : String) (r : HistRecord),
      hlookup (doeLoop api f page hist).history k = some r →
      hlookup hist k = some r ∨ r.found_name = true := by
  intro f
  induction f with
  | zero => intro page hist k r h; exact Or.inl h
  | succ f ih =>
    intro page hist k r h
    cases hapi : api page with
    | error e => simp only [doeLoop, hapi] at h; exact Or.inl h
    | ok pg =>
      by_cases hemp : pg.items.isEmpty = true
      · simp only [doeLoop, hapi, hemp, if_true] at h
        exact Or.inl h
      · have hemp' : pg.items.isEmpty = false := by simpa using hemp
        by_cases hnext : pg.hasNextPage = true
        · simp only [doeLoop, hapi, hemp', Bool.false_eq_true, if_false, hnext, if_true] at h
          rcases ih (page + 1) _ k r h with h2 | h2
          · exact doeProcessItems_lookup_new pg.items hist k r h2
          · exact Or.inr h2
        · have hnext' : pg.hasNextPage = false := by simpa using hnext
          simp only [doeLoop, hapi, hemp', Bool.false_eq_true, if_false, hnext', if_false] at h
          exact doeProcessItems_lookup_new pg.items hist k r h

/-- With at least one unit of fuel the loop always issues the request
for its first page. -/
theorem doeLoop_requests_ne (api : Nat → Except String DoePage) (f page : Nat)
    (hist : History) (hf : 1 ≤ f) : (doeLoop api f page hist).requests ≠ [] := by
  obtain ⟨f, rfl⟩ : ∃ f', f = f' + 1 := ⟨f - 1, by omega⟩
  cases hapi : api page with
  | error e => simp [doeLoop, hapi]
  | ok pg =>
    by_cases hemp : pg.items.isEmpty = true
    · simp [doeLoop, hapi, hemp]
    · have hemp' : pg.items.isEmpty = false := by simpa using hemp
      by_cases hnext : pg.hasNextPage = true
      · simp [doeLoop, hapi, hemp', hnext]
      · have hnext' : pg.hasNextPage = false := by simpa using hnext
        simp [doeLoop, hapi, hemp', hnext']

/-- Re-running the gazette pagination loop over the history it just
produced changes nothing and emits nothing: same history, zero new
records, zero notifications, and the identical request/evaluation
trace. -/
theorem doeLoop_idem (api : Nat → Except String DoePage) :
    ∀ (f page : Nat) (hist : History),
      doeLoop api f page (doeLoop api f page hist).history =
        { history := (doeLoop api f page hist).history, newCount := 0, notifs := [],
          requests := (doeLoop api f page hist).requests,
          evaluated := (doeLoop api f page hist).evaluated,
          done := (doeLoop api f page hist).done } := by
  intro f
  induction f with
  | zero => intro page hist; rfl
  | succ f ih =>
    intro page hist
    cases hapi : api page with
    | error e => simp [doeLoop, hapi]
    | ok pg =>
      by_cases hemp : pg.items.isEmpty = true
      · simp [doeLoop, hapi, hemp]
      · have hemp' : pg.items.isEmpty = false := by simpa using hemp
        by_cases hnext : pg.hasNextPage = true
        · have hallmem : ∀ item ∈ pg.items,
              hmem (doeLoop api f (page + 1) (doeProcessItems pg.items hist).1).history
                ("doe:" ++ item.id) = true := by
            intro item hit
            exact doeLoop_hmem api f (page + 1) _ _
              (doeProcessItems_all_mem pg.items hist item hit)
          have hskip := doeProcessItems_skip pg.items
            (doeLoop api f (page + 1) (doeProcessItems pg.items hist).1).history hallmem
          simp only [doeLoop, hapi, hemp', Bool.false_eq_true, if_false, hnext, if_true]
          simp only [hskip, ih (page + 1) ((doeProcessItems pg.items hist).1)]
          simp
        · have hnext' : pg.hasNextPage = false := by simpa using hnext
          have hallmem : ∀ item ∈ pg.items,
              hmem (doeProcessItems pg.items hist).1 ("doe:" ++ item.id) = true :=
            fun item hit => doeProcessItems_all_mem pg.items hist item hit
          have hskip := doeProcessItems_skip pg.items (doeProcessItems pg.items hist).1 hallmem
          simp only [doeLoop, hapi, hemp', Bool.false_eq_true, if_false, hnext', if_false]
          simp only [hskip]

/-! ## `discover_detail_links` lemmas (claim C3) -/

theorem collectLinks_sublist (join : String → String) :
    ∀ (anchors seen : List String),
      (collectLinks join seen anchors).Sublist ((anchors.filter isDetailHref).map join) := by
  intro anchors
  induction anchors with
  | nil => intro seen; simp [collectLinks]
  | cons h hs ih =>
    intro seen
    by_cases hd : isDetailHref h = true
    · rw [List.filter_cons_of_pos hd, List.map_cons]
      by_cases hm : join h ∈ seen
      · simp only [collectLinks, hd, if_true, hm]
        exact (ih seen).cons (join h)
      · simp only [collectLinks, hd, if_true, hm, if_false]
        exact (ih (join h :: seen)).cons₂ (join h)
    · have hd' : isDetailHref h = false := by simpa using hd
      rw [List.filter_cons_of_neg (by simp [hd'])]
      simp only [collectLinks, hd', Bool.false_eq_true, if_false]
      exact ih seen

theorem collectLinks_notin_seen (join : String → String) :
    ∀ (anchors seen : List String) (x : String),
      x ∈ collectLinks join seen anchors → x ∉ seen := by
  intro anchors
  induction anchors with
  | nil => intro seen x hx; simp [collectLinks] at hx
  | cons h hs ih =>
    intro seen x hx
    by_cases hd : isDetailHref h = true
    · by_cases hm : join h ∈ seen
      · simp only [collectLinks, hd, if_true, hm] at hx
        exact ih seen x hx
      · simp only [collectLinks, hd, if_true, hm, if_false, List.mem_cons] at hx
        rcases hx with rfl | hx
        · exact hm
        · intro hxs
          exact ih (join h :: seen) x hx (List.mem_cons_of_mem _ hxs)
    · have hd' : isDetailHref h = false := by simpa using hd
      simp only [collectLinks, hd', Bool.false_eq_true, if_false] at hx
      exact ih seen x hx

theorem collectLinks_nodup (join : String → String) :
    ∀ (anchors seen : List String), (collectLinks join seen anchors).Nodup := by
  intro anchors
  induction anchors with
  | nil => intro seen; simp [collectLinks]
  | cons h hs ih =>
    intro seen
    by_cases hd : isDetailHref h = true
    · by_cases hm : join h ∈ seen
      · simp only [collectLinks, hd, if_true, hm]
        exact ih seen
      · simp only [collectLinks, hd, if_true, hm, if_false]
        refine List.nodup_cons.mpr ⟨?_, ih (join h :: seen)⟩
        intro hin
        exact collectLinks_notin_seen join hs (join h :: seen) (join h) hin
          (List.mem_cons_self _ _)
    · have hd' : isDetailHref h = false := by simpa using hd
      simp only [collectLinks, hd', Bool.false_eq_true, if_false]
      exact ih seen

theorem collectLinks_complete (join : String → String) :
    ∀ (anchors seen : List String),
      ((anchors.filter isDetailHref).map join).Nodup →
      (∀ x ∈ (anchors.filter isDetailHref).map join, x ∉ seen) →
      collectLinks join seen anchors = (anchors.filter isDetailHref).map join := by
  intro anchors
  induction anchors with
  | nil => intro seen _ _; simp [collectLinks]
  | cons h hs ih =>
    intro seen hnd hfresh
    by_cases hd : isDetailHref h = true
    · rw [List.filter_cons_of_pos hd, List.map_cons] at hnd hfresh ⊢
      have hm : join h ∉ seen := hfresh (join h) (List.mem_cons_self _ _)
      simp only [collectLinks, hd, if_true, hm, if_false]
      congr 1
      refine ih (join h :: seen) (List.nodup_cons.mp hnd).2 ?_
      intro x hx hxin
      rcases List.mem_cons.mp hxin with rfl | hxs
      · exact (List.nodup_cons.mp hnd).1 hx
      · exact hfresh x (List.mem_cons_of_mem _ hx) hxs
    · have hd' : isDetailHref h = false := by simpa using hd
      rw [List.filter_cons_of_neg (by simp [hd'])] at hnd hfresh ⊢
      simp only [collectLinks, hd', Bool.false_eq_true, if_false]
      exact ih seen hnd hfresh

/-- C3: `discover_detail_links` returns a duplicate-free list, in
first-seen document order (a sublist of the matching anchors after URL
resolution), of length at most `MAX_PROCESSES_PER_PAGE`; when the
resolved matching anchors are distinct the result is exactly the first
`MAX_PROCESSES_PER_PAGE` of them, and a failed fetch yields `[]`. -/
theorem C3_discover_dedup_capped (join : String → String) (anchors : List String) :
    (discover_detail_links join (some anchors)).Nodup ∧
    (discover_detail_links join (some anchors)).length ≤ MAX_PROCESSES_PER_PAGE ∧
    (discover_detail_links join (some anchors)).Sublist
      ((anchors.filter isDetailHref).map join) ∧
    (((anchors.filter isDetailHref).map join).Nodup →
      discover_detail_links join (some anchors) =
        ((anchors.filter isDetailHref).map join).take MAX_PROCESSES_PER_PAGE) ∧
    discover_detail_links join none = [] := by
  refine ⟨?_, ?_, ?_, ?_, rfl⟩
  · exact (List.take_sublist _ _).nodup (collectLinks_nodup join anchors [])
  · show ((collectLinks join [] anchors).take MAX_PROCESSES_PER_PAGE).length ≤ _
    exact List.length_take_le _ _
  · exact (List.take_sublist _ _).trans (collectLinks_sublist join anchors [])
  · intro hnd
    show (collectLinks join [] anchors).take _ = _
    rw [collectLinks_complete join anchors [] hnd (by simp)]

set_option maxHeartbeats 3200000 in
/-- Witness for C3 at a listing with 80 distinct matching anchors
(URL resolution taken as the identity): the result is exactly the
first 50 resolved anchors, hence has length 50. -/
theorem C3_witness :
    ((anchors80.filter isDetailHref).map (fun a => a)).Nodup ∧
    discover_detail_links (fun a => a) (some anchors80) =
      ((anchors80.filter isDetailHref).map (fun a => a)).take MAX_PROCESSES_PER_PAGE ∧
    (discover_detail_links (fun a => a) (some anchors80)).length = 50 := by
  have hnd : ((anchors80.filter isDetailHref).map (fun a => a)).Nodup := by decide
  exact ⟨hnd, (C3_discover_dedup_capped (fun a => a) anchors80).2.2.2.1 hnd, by decide⟩

/-! ## Claim C1: insert-only history, idempotent re-processing -/

/-- C1: for every history and every key already present in it,
re-processing that item (crawler feed or gazette feed) leaves the
looked-up record unchanged and emits no notification for that key, and
re-running either processing step over the history it just produced
yields zero new notifications (and an unchanged history). -/
theorem C1_history_insert_only :
    (∀ (check : DocInfo → Bool) (meta : ProcMeta) (detail_url label : String)
       (docs : List DocInfo) (hist : History) (k : String), hmem hist k = true →
        hlookup (process_detail_page (some (meta, docs)) check detail_url label hist).1 k =
            hlookup hist k ∧
        ∀ msg, (k, msg) ∉ (process_detail_page (some (meta, docs)) check detail_url label hist).2) ∧
    (∀ (fetched : Option (ProcMeta × List DocInfo)) (check : DocInfo → Bool)
       (detail_url label : String) (hist : History),
        process_detail_page fetched check detail_url label
            (process_detail_page fetched check detail_url label hist).1 =
          ((process_detail_page fetched check detail_url label hist).1, [])) ∧
    (∀ (api : Nat → Except String DoePage) (fuel : Nat) (hist : History) (k : String),
        hmem hist k = true →
        hlookup (search_doe_sp api fuel hist).history k = hlookup hist k ∧
        ∀ msg, (k, msg) ∉ (search_doe_sp api fuel hist).notifs) ∧
    (∀ (api : Nat → Except String DoePage) (fuel : Nat) (hist : History),
        (search_doe_sp api fuel (search_doe_sp api fuel hist).history).history =
            (search_doe_sp api fuel hist).history ∧
        (search_doe_sp api fuel (search_doe_sp api fuel hist).history).newCount = 0 ∧
        (search_doe_sp api fuel (search_doe_sp api fuel hist).history).notifs = []) := by
  refine ⟨?_, ?_, ?_, ?_⟩
  · intro check meta detail_url label docs hist k hk
    constructor
    · by_cases he : docs.isEmpty = true
      · simp [process_detail_page, he]
      · have he' : docs.isEmpty = false := by simpa using he
        simp only [process_detail_page, he', Bool.false_eq_true, if_false]
        exact processDocs_lookup_preserved check meta detail_url label docs hist k hk
    · intro msg hin
      by_cases he : docs.isEmpty = true
      · simp [process_detail_page, he] at hin
      · have he' : docs.isEmpty = false := by simpa using he
        simp only [process_detail_page, he', Bool.false_eq_true, if_false] at hin
        exact processDocs_notif_fresh check meta detail_url label docs hist k hk msg hin
  · exact fun fetched check du lb hist => process_detail_page_idem fetched check du lb hist
  · intro api fuel hist k hk
    exact ⟨doeLoop_lookup_preserved api fuel 1 hist k hk,
           fun msg => doeLoop_notif_fresh api fuel 1 hist k hk msg⟩
  · intro api fuel hist
    have h := doeLoop_idem api fuel 1 hist
    refine ⟨?_, ?_, ?_⟩ <;> simp only [search_doe_sp] <;> rw [h]

/-- Witness for C1 at a concrete history already containing the
document key `"ku"` and a concrete one-item gazette API. -/
theorem C1_witness :
    hlookup (process_detail_page (some ({}, [docA])) (fun _ => true) "du" "lb" histA).1 "ku" =
      hlookup histA "ku" ∧
    (search_doe_sp apiOne 1 (search_doe_sp apiOne 1 histA).history).newCount = 0 :=
  ⟨(C1_history_insert_only.1 (fun _ => true) {} "du" "lb" [docA] histA "ku" (by decide)).1,
   (C1_history_insert_only.2.2.2 apiOne 1 histA).2.1⟩

/-! ## Claim C4: gazette pagination termination -/

/-- C4: with a search API returning 3 pages of 20 items each and
`hasNextPage = false` on the third, the pagination loop requests
exactly pages 1, 2, 3 (no 4th request), evaluates exactly 60 items,
and terminates. -/
theorem C4_pagination_terminates (api : Nat → Except String DoePage)
    (p1 p2 p3 : DoePage) (hist : History) (fuel : Nat) (hf : 3 ≤ fuel)
    (h1 : api 1 = Except.ok p1) (h2 : api 2 = Except.ok p2) (h3 : api 3 = Except.ok p3)
    (l1 : p1.items.length = 20) (l2 : p2.items.length = 20) (l3 : p3.items.length = 20)
    (n1 : p1.hasNextPage = true) (n2 : p2.hasNextPage = true) (n3 : p3.hasNextPage = false) :
    (search_doe_sp api fuel hist).requests = [1, 2, 3] ∧
    (search_doe_sp api fuel hist).evaluated = 60 ∧
    (search_doe_sp api fuel hist).done = true := by
  obtain ⟨f, rfl⟩ : ∃ f', fuel = f' + 3 := ⟨fuel - 3, by omega⟩
  have e1 : p1.items.isEmpty = false := by
    cases hi : p1.items with
    | nil => rw [hi] at l1; simp at l1
    | cons a l => rfl
  have e2 : p2.items.isEmpty = false := by
    cases hi : p2.items with
    | nil => rw [hi] at l2; simp at l2
    | cons a l => rfl
  have e3 : p3.items.isEmpty = false := by
    cases hi : p3.items with
    | nil => rw [hi] at l3; simp at l3
    | cons a l => rfl
  have step : ∀ (f0 page : Nat) (h0 : History) (pg : DoePage),
      api page = Except.ok pg → pg.items.isEmpty = false → pg.hasNextPage = true →
      doeLoop api (f0 + 1) page h0 =
        { history := (doeLoop api f0 (page + 1) (doeProcessItems pg.items h0).1).history,
          newCount := (doeProcessItems pg.items h0).2.1 +
            (doeLoop api f0 (page + 1) (doeProcessItems pg.items h0).1).newCount,
          notifs := (doeProcessItems pg.items h0).2.2 ++
            (doeLoop api f0 (page + 1) (doeProcessItems pg.items h0).1).notifs,
          requests := page :: (doeLoop api f0 (page + 1) (doeProcessItems pg.items h0).1).requests,
          evaluated := pg.items.length +
            (doeLoop api f0 (page + 1) (doeProcessItems pg.items h0).1).evaluated,
          done := (doeLoop api f0 (page + 1) (doeProcessItems pg.items h0).1).done } := by
    intro f0 page h0 pg hapi hemp hnext
    simp only [doeLoop, hapi, hemp, Bool.false_eq_true, if_false, hnext, if_true]
  have last : ∀ (f0 page : Nat) (h0 : History) (pg : DoePage),
      api page = Except.ok pg → pg.items.isEmpty = false → pg.hasNextPage = false →
      doeLoop api (f0 + 1) page h0 =
        { history := (doeProcessItems pg.items h0).1,
          newCount := (doeProcessItems pg.items h0).2.1,
          notifs := (doeProcessItems pg.items h0).2.2, requests := [page],
          evaluated := pg.items.length, done := true } := by
    intro f0 page h0 pg hapi hemp hnext
    simp only [doeLoop, hapi, hemp, Bool.false_eq_true, if_false, hnext, if_false]
  show (doeLoop api (f + 3) 1 hist).requests = [1, 2, 3] ∧
    (doeLoop api (f + 3) 1 hist).evaluated = 60 ∧ (doeLoop api (f + 3) 1 hist).done = true
  rw [show f + 3 = (f + 2) + 1 from rfl, step (f + 2) 1 hist p1 h1 e1 n1]
  rw [show f + 2 = (f + 1) + 1 from rfl, step (f + 1) 2 _ p2 h2 e2 n2]
  rw [last f 3 _ p3 h3 e3 n3]
  refine ⟨rfl, ?_, rfl⟩
  show p1.items.length + (p2.items.length + p3.items.length) = 60
  rw [l1, l2, l3]

/-- Witness for C4: the concrete three-page API `apiThree`, with fuel 3. -/
theorem C4_witness :
    (search_doe_sp apiThree 3 []).requests = [1, 2, 3] ∧
    (search_doe_sp apiThree 3 []).evaluated = 60 ∧
    (search_doe_sp apiThree 3 []).done = true :=
  C4_pagination_terminates apiThree (doeTestPage true) (doeTestPage true) (doeTestPage false)
    [] 3 (by omega) rfl rfl rfl rfl rfl rfl rfl rfl rfl

/-! ## Claim C5: DOCX table-cell scanning -/

/-- C5: the word-processor matcher scans table cells as well as
paragraphs — a name occurring in any table cell makes the matcher
report a match (even if no paragraph contains it) — and a malformed
document fails soft to `false`. -/
theorem C5_docx_table_scan :
    (∀ (d : DocxDoc) (name : String) (table : List (List String)) (row : List String)
       (cell : String), table ∈ d.tables → row ∈ table → cell ∈ row →
        strContains (pyLowerStr cell) (pyLowerStr name) = true →
        check_name_in_docx (some d) name = true) ∧
    (∀ name : String, check_name_in_docx none name = false) := by
  refine ⟨?_, fun _ => rfl⟩
  intro d name table row cell ht hr hc hfound
  simp only [check_name_in_docx, Bool.or_eq_true, List.any_eq_true]
  exact Or.inr ⟨table, ht, row, hr, cell, hc, hfound⟩

/-- Witness for C5: a document whose only occurrence of the candidate
name (differing in case) is inside a table cell. -/
theorem C5_witness :
    check_name_in_docx (some docxTableOnly) "renan bezerra DOS santos" = true ∧
    check_name_in_docx none "renan bezerra DOS santos" = false :=
  ⟨C5_docx_table_scan.1 docxTableOnly "renan bezerra DOS santos"
      [["item"], ["Renan Bezerra dos Santos", "aprovado"]]
      ["Renan Bezerra dos Santos", "aprovado"] "Renan Bezerra dos Santos"
      (by decide) (by decide) (by decide) (by decide),
   C5_docx_table_scan.2 "renan bezerra DOS santos"⟩

/-! ## Claim C6: gazette hits are recorded with found_name = true -/

/-- C6: every gazette publication id not already in history is recorded
with `found_name = true`, unconditionally — presence in the search
API's result set is taken as the match. -/
theorem C6_gazette_found_name (api : Nat → Except String DoePage) (fuel : Nat)
    (hist : History) (k : String) (r : HistRecord)
    (hfresh : hmem hist k = false)
    (hfound : hlookup (search_doe_sp api fuel hist).history k = some r) :
    r.found_name = true := by
  rcases doeLoop_lookup_new api fuel 1 hist k r hfound with h | h
  · rw [show hmem hist k = (hlookup hist k).isSome from rfl, h] at hfresh
    simp at hfresh
  · exact h

/-- Witness for C6: a fresh publication id recorded by a one-page API. -/
theorem C6_witness : (doeRecord itemX).found_name = true :=
  C6_gazette_found_name apiOne 1 [] "doe:x" (doeRecord itemX) rfl (by decide)

/-! ## Claim C7: metadata extraction defaults and fallback -/

/-- C7: `extract_metadata` always yields a record with all four fields
(it is a total function into `ProcMeta`), each field defaulting to `""`
when its pattern gave nothing, and the disciplina field is taken from
the CURSO pattern exactly when the DISCIPLINA/COMPONENTE CURRICULAR
pattern yielded nothing (no match, or a capture that strips to empty). -/
theorem C7_extract_metadata_total (m : MetaMatches) :
    (m.editalNum = none → (extract_metadata m).edital = "") ∧
    (m.unidadeCidade = none →
      (extract_metadata m).unidade = "" ∧ (extract_metadata m).cidade = "") ∧
    (m.disciplina = none → m.curso = none → (extract_metadata m).disciplina = "") ∧
    (∀ d, m.disciplina = some d → pyStrip d = "" → m.curso = none →
      (extract_metadata m).disciplina = "") ∧
    (∀ c, m.curso = some c → m.disciplina = none →
      (extract_metadata m).disciplina = pyStrip c) ∧
    (∀ d c, m.disciplina = some d → pyStrip d = "" → m.curso = some c →
      (extract_metadata m).disciplina = pyStrip c) ∧
    (∀ d, m.disciplina = some d → pyStrip d ≠ "" →
      (extract_metadata m).disciplina = pyStrip d) := by
  obtain ⟨e, uc, dd, cc⟩ := m
  refine ⟨?_, ?_, ?_, ?_, ?_, ?_, ?_⟩
  · intro he
    subst he
    cases uc <;> cases dd <;> cases cc <;> simp [extract_metadata] <;> split <;> simp_all
  · intro huc
    subst huc
    cases e <;> cases dd <;> cases cc <;> simp [extract_metadata] <;> split <;> simp_all
  · intro hd hc
    subst hd; subst hc
    cases e <;> cases uc <;> simp [extract_metadata]
  · intro d hd hstrip hc
    subst hd; subst hc
    cases e <;> cases uc <;> simp [extract_metadata, hstrip]
  · intro c hc hd
    subst hc; subst hd
    cases e <;> cases uc <;> simp [extract_metadata]
  · intro d c hd hstrip hc
    subst hd; subst hc
    cases e <;> cases uc <;> simp [extract_metadata, hstrip]
  · intro d hd hstrip
    subst hd
    cases e <;> cases uc <;> cases cc <;> simp [extract_metadata, hstrip]

/-- Witness for C7: a whitespace-only DISCIPLINA capture falls back to
the CURSO capture; with no matches at all the fields stay empty. -/
theorem C7_witness :
    (extract_metadata ⟨none, none, some " ", some " Matemática "⟩).disciplina =
      pyStrip " Matemática " ∧
    (extract_metadata ⟨none, none, none, none⟩).edital = "" :=
  ⟨(C7_extract_metadata_total ⟨none, none, some " ", some " Matemática "⟩).2.2.2.2.2.1
      " " " Matemática " rfl (by decide) rfl,
   (C7_extract_metadata_total ⟨none, none, none, none⟩).1 rfl⟩

/-! ## Claim C9: behaviour with no configured listing sources -/

/-- C9 counterexample: with no listing sources configured the sweep
does NOT abort before network activity with a non-zero exit: it exits
with code 0 and still issues the gazette search request for page 1. -/
theorem C9_counterexample :
    (mainModel [] [] (fun _ => none) (fun _ h => h) (fun _ => none) (fun _ => false)
        (fun _ => Except.error "unreachable") 1).exitCode = 0 ∧
    (mainModel [] [] (fun _ => none) (fun _ h => h) (fun _ => none) (fun _ => false)
        (fun _ => Except.error "unreachable") 1).requests = [NetReq.doeSearch 1] :=
  ⟨rfl, rfl⟩

/-- C9 (amended): with no listing sources configured the program does
not abort — the crawler phase performs no network activity, but the
gazette phase still does (at least the page-1 search request), and the
sweep completes normally with exit code 0. -/
theorem C9_amended_no_config_abort (hist0 : History)
    (fetchListing : String → Option (List String)) (join : String → String → String)
    (fetchDetail : String → Option (ProcMeta × List DocInfo)) (check : DocInfo → Bool)
    (api : Nat → Except String DoePage) (fuel : Nat) (hf : 1 ≤ fuel) :
    (mainModel [] hist0 fetchListing join fetchDetail check api fuel).exitCode = 0 ∧
    (mainModel [] hist0 fetchListing join fetchDetail check api fuel).requests ≠ [] ∧
    (mainModel [] hist0 fetchListing join fetchDetail check api fuel).requests.all
      reqIsDoePhase = true := by
  refine ⟨rfl, ?_, ?_⟩
  · intro hcon
    have h := doeLoop_requests_ne api fuel 1 hist0 hf
    simp only [mainModel, crawlAll, search_doe_sp, List.nil_append,
      List.append_eq_nil, List.map_eq_nil_iff] at hcon
    exact h hcon.1
  · simp only [mainModel, crawlAll, search_doe_sp, List.nil_append, List.all_append,
      Bool.and_eq_true]
    constructor
    · refine List.all_eq_true.mpr ?_
      intro x hx
      obtain ⟨p, _, rfl⟩ := List.mem_map.mp hx
      rfl
    · refine List.all_eq_true.mpr ?_
      intro x hx
      obtain ⟨p, _, rfl⟩ := List.mem_map.mp hx
      rfl

/-- Witness for the amended C9 at concrete inputs. -/
theorem C9_witness :
    (mainModel [] [] (fun _ => none) (fun _ h => h) (fun _ => none) (fun _ => false)
        apiOne 1).exitCode = 0 ∧
    (mainModel [] [] (fun _ => none) (fun _ h => h) (fun _ => none) (fun _ => false)
        apiOne 1).requests ≠ [] ∧
    (mainModel [] [] (fun _ => none) (fun _ h => h) (fun _ => none) (fun _ => false)
        apiOne 1).requests.all reqIsDoePhase = true :=
  C9_amended_no_config_abort [] (fun _ => none) (fun _ h => h) (fun _ => none)
    (fun _ => false) apiOne 1 (by omega)

/-! ## Claim C10: unknown extensions never match -/

/-- C10: for any downloaded content and any extension other than
`pdf`, `doc` or `docx`, `check_name_in_document` returns `false`
without consulting either parser, so such a document can never produce
a "name found" outcome. -/
theorem C10_unknown_extension (downloaded : Option DocContent) (ext name : String)
    (h1 : ext ≠ "pdf") (h2 : ext ≠ "docx") (h3 : ext ≠ "doc") :
    check_name_in_document downloaded ext name = false := by
  match downloaded with
  | none => rfl
  | some content =>
    simp only [check_name_in_document]
    rw [if_neg h1, if_neg (fun hor => Or.elim hor h2 h3)]

/-- Witness for C10: a `txt` extension with content that would match
under either parser still yields `false`. -/
theorem C10_witness :
    check_name_in_document
      (some { pdf := some { pages := [some "Renan"] },
              docx := some { paragraphs := ["Renan"], tables := [] } }) "txt" "Renan" = false :=
  C10_unknown_extension _ "txt" "Renan" (by decide) (by decide) (by decide)

/-- Witness for C8 at a concrete URL. -/
theorem C8_witness :
    classify_phase "edital de abertura 2026" "https://example.org/doc.pdf" =
      "📋 Edital de Abertura" :=
  C8_abertura_always_first "https://example.org/doc.pdf"
